import Mathlib

/-!
Shallow embedding of the chunked CSV-mapping ETL scripts
(`1_csv_updates/9_code_optimized.py`, the pandas chunked variant, and
`1_csv_updates/code_5.py`, the SQLite variant).

Column names and cell values are Lean `String`s; a missing cell (pandas
`NaN` / SQL `NULL`) is `none : Option String` while the empty string is
`some ""` — the scripts distinguish the two exactly like that
(`isna` vs `== ''`).
-/

/-! ## Column-name sanitization

Both scripts clean column names with the same three pandas steps:
`str.replace('[^0-9a-zA-Z_]+', '_', regex=True)` (each maximal run of
characters outside `[0-9a-zA-Z_]` becomes one underscore), then
`str.replace('__', '_', regex=False)` (a single non-overlapping
left-to-right pass replacing each `__` by `_`), then `str.strip('_')`.
-/

/-- Membership in the character class `[0-9a-zA-Z_]` of the cleaning regex. -/
def isAllowed (c : Char) : Bool :=
  ('0' ≤ c && c ≤ '9') || ('a' ≤ c && c ≤ 'z') || ('A' ≤ c && c ≤ 'Z') || c == '_'

/-- Regex step: replace each maximal run of disallowed characters by one `'_'`.
The flag records whether we are inside such a run. -/
def squashAux : Bool → List Char → List Char
  | _, [] => []
  | inRun, c :: cs =>
    if isAllowed c then c :: squashAux false cs
    else if inRun then squashAux inRun cs
    else '_' :: squashAux true cs

/-- Python `str.replace('__', '_')`: one non-overlapping left-to-right pass.
The flag records a pending `'_'` that has not yet found a partner. -/
def collapseAux : Bool → List Char → List Char
  | pending, [] => if pending then ['_'] else []
  | pending, c :: cs =>
    if c == '_' then
      if pending then '_' :: collapseAux false cs
      else collapseAux true cs
    else
      if pending then '_' :: c :: collapseAux false cs
      else c :: collapseAux false cs

def collapseOnce (l : List Char) : List Char := collapseAux false l

/-- Python `str.strip('_')`: drop leading and trailing underscores. -/
def stripU (l : List Char) : List Char :=
  ((l.dropWhile (· == '_')).reverse.dropWhile (· == '_')).reverse

def sanitizeList (l : List Char) : List Char :=
  stripU (collapseOnce (squashAux false l))

/-- The full column-name cleaning applied by both scripts. -/
def sanitizeStr (s : String) : String := ⟨sanitizeList s.data⟩

/-- Whether the list starts with an underscore. -/
def nextIsU : List Char → Bool
  | d :: _ => d == '_'
  | [] => false

/-- Whether two adjacent underscores occur somewhere in the list. -/
def hasDU : List Char → Bool
  | [] => false
  | c :: cs => (c == '_' && nextIsU cs) || hasDU cs

example : sanitizeStr "a!_!b" = "a__b" := by decide
example : sanitizeStr (sanitizeStr "a!_!b") = "a_b" := by decide
example : sanitizeStr "Amt Senf 01" = "Amt_Senf_01" := by decide
example : sanitizeStr "id" = "id" := by decide

/-! ## Lookup index

Both scripts build the mapping lookup from rows of the mapping file after
resolving a sender-code column, a category-number column and an
average-value column.  `MappingRow` is one mapping-file row restricted to
those three resolved columns; any of them can be absent (`NaN`).  The
composite key is `fillna('') + '_' + fillna('')`; the pandas variant keeps
the rows as a DataFrame indexed (non-uniquely) by the key, the SQLite
variant as an indexed table — in both, duplicate keys are all retained.
-/

structure MappingRow where
  senf : Option String
  cat  : Option String
  avg  : Option String
deriving DecidableEq

def compositeKey (r : MappingRow) : String :=
  r.senf.getD "" ++ "_" ++ r.cat.getD ""

def buildLookup (rows : List MappingRow) : List (String × Option String) :=
  rows.map fun r => (compositeKey r, r.avg)

/-- The composite key derived from a main-data cell: column name, `'_'`, value. -/
def colKey (col v : String) : String := col ++ "_" ++ v

/-- All index entries matching a key — what the pandas left merge joins
against a non-unique index produces (one output row per matching entry). -/
def lookupMatches (idx : List (String × Option String)) (key : String) :
    List (Option String) :=
  (idx.filter fun p => p.1 == key).map Prod.snd

/-- Single-match lookup: the merge result when the key occurs at most once
in the index (the regime in which the vectorized update of the pandas
variant is well defined). -/
def mergeLookup (idx : List (String × Option String)) (key : String) :
    Option (Option String) :=
  (idx.find? fun p => p.1 == key).map Prod.snd

/-! ## Pandas chunked variant: per-cell transform and unmapped bookkeeping -/

/-- pandas blank test: `isna()` or equal to the empty string. -/
def isBlank (cell : Option String) : Bool :=
  match cell with
  | none => true
  | some v => v == ""

/-- New value of one cell of a target column after the chunk update
(`chunk_df.loc[...] = update_series_nan...`): blanks are filtered out and
stay as they are; a lookup miss overwrites the cell with `NaN`; a hit
writes the mapped `avg_value` (which is itself `NaN` when the mapping row
had no average). -/
def newCellOpt (idx : List (String × Option String)) (col : String)
    (cell : Option String) : Option String :=
  match cell with
  | none => none
  | some v =>
    if v == "" then some v
    else
      match mergeLookup idx (colKey col v) with
      | none => none
      | some avg => avg

/-- Whether this cell puts its row id into the chunk unmapped set:
blank cells do (lines 149-155), and merged rows with `avg_value.isna()`
do (lines 189-194) — the latter covers both a key miss and a hit on a
mapping row whose average is `NaN`. -/
def cellUnmapped (idx : List (String × Option String)) (col : String)
    (cell : Option String) : Bool :=
  match cell with
  | none => true
  | some v =>
    if v == "" then true
    else
      match mergeLookup idx (colKey col v) with
      | none => true
      | some avg => avg.isNone

/-- Ids contributed to the unmapped set by one target column of a chunk;
a column is given as the list of `(id, cell)` pairs of its rows. -/
def colUnmappedIds (idx : List (String × Option String)) (col : String)
    (rows : List (String × Option String)) : List String :=
  (rows.filter fun r => cellUnmapped idx col r.2).map Prod.fst

/-- Insertion into the Python `set` accumulator (membership-deduplicating). -/
def setInsert (acc : List String) (x : String) : List String :=
  if x ∈ acc then acc else acc ++ [x]

def setUnion (acc : List String) (xs : List String) : List String :=
  xs.foldl setInsert acc

/-- `unmapped_row_ids_in_chunk`: the per-chunk set accumulated column by
column; the chunk is given column-major as `(columnName, rows)` pairs. -/
def batchUnmappedIds (idx : List (String × Option String))
    (colsData : List (String × List (String × Option String))) : List String :=
  colsData.foldl (fun acc cd => setUnion acc (colUnmappedIds idx cd.1 cd.2)) []

/-! ## SQLite variant: per-cell update and unmapped collection -/

/-- The scalar subquery `SELECT mm.avg_value FROM mapping_midtable WHERE
key = composite_key`: the average of the first matching table row, `NULL`
when there is none. -/
def sqlScalar (idx : List (String × Option String)) (key : String) :
    Option String :=
  match idx.find? fun p => p.1 == key with
  | some p => p.2
  | none => none

/-- `update_sql` on one cell: the `SET` fires only `WHERE EXISTS` a
matching composite key; a `NULL` cell yields a `NULL` key which matches
nothing, and an unmatched cell keeps its original value. -/
def sqlUpdateCell (idx : List (String × Option String)) (col : String)
    (cell : Option String) : Option String :=
  match cell with
  | none => none
  | some v =>
    if idx.any fun p => p.1 == colKey col v then sqlScalar idx (colKey col v)
    else some v

/-- `insert_unmapped_sql` for one column: rows whose value is non-`NULL`,
non-empty and without a matching composite key, recorded as
`(original_id, original_value, column_name)`. -/
def sqlUnmappedForCol (idx : List (String × Option String)) (col : String)
    (table : List (String × Option String)) : List (String × String × String) :=
  table.filterMap fun r =>
    match r.2 with
    | none => none
    | some v =>
      if v == "" then none
      else if idx.any fun p => p.1 == colKey col v then none
      else some (r.1, v, col)

/-- The `temp_unmapped_values` table after the loop over all AMT columns. -/
def sqlCollectUnmapped (idx : List (String × Option String))
    (colsData : List (String × List (String × Option String))) :
    List (String × String × String) :=
  colsData.foldl (fun acc cd => acc ++ sqlUnmappedForCol idx cd.1 cd.2) []

/-- Step 6 of the SQLite variant: the report file is written only
`if not df_unmapped.empty`; `none` means no file is created. -/
def sqlExportReport (temp : List (String × String × String)) :
    Option (List (String × String × String)) :=
  if temp.isEmpty then none else some temp

/-! ## Pandas variant: unmapped-report writer -/

/-- One chunk flush of the unmapped set: nothing is written for an empty
set; the header is written before the first non-empty one
(`is_first_unmapped_chunk`), later sets are appended without it.
State: (header still pending, file lines so far). -/
def reportStep (idCol : String) (st : Bool × List String) (s : List String) :
    Bool × List String :=
  if s.isEmpty then st
  else if st.1 then (false, st.2 ++ idCol :: s)
  else (false, st.2 ++ s)

/-- The report file contents after the whole run: per-chunk flushes, then
the final check writing a header-only file when no chunk ever flushed. -/
def runReport (idCol : String) (sets : List (List String)) : List String :=
  let st := sets.foldl (reportStep idCol) (true, [])
  if st.1 then [idCol] else st.2

example : runReport "id" [[], [], []] = ["id"] := by decide
example : runReport "id" [[], ["7"], ["9"]] = ["id", "7", "9"] := by decide
example : sqlUpdateCell [] "amt_x" (some "5") = some "5" := by decide
example : newCellOpt [] "amt_x" (some "5") = none := by decide
example : sqlScalar [("a_k", some "1"), ("a_k", some "2")] "a_k" = some "1" := by decide
example : lookupMatches [("a_k", some "1"), ("a_k", some "2")] "a_k" = [some "1", some "2"] := by decide

/-! ## Run-level model: chunks, schema skip, configuration errors

A chunk carries its column header and its rows; each row is the ordered
list of `(columnName, cellValue)` pairs.  The pandas variant sanitizes a
chunk's column names, skips the chunk when the identifier column is
absent (`continue`), and otherwise updates every target column in place.
Any other exception in the chunk loop is re-raised and aborts the run;
the one the embedded update can genuinely produce is the pandas length
mismatch when a looked-up key occurs more than once in the index.
-/

structure Chunk where
  cols : List String
  rows : List (List (String × Option String))
deriving DecidableEq

def sanitizeChunk (c : Chunk) : Chunk :=
  { cols := c.cols.map sanitizeStr,
    rows := c.rows.map fun r => r.map fun cell => (sanitizeStr cell.1, cell.2) }

def transformRow (idx : List (String × Option String)) (amtCols : List String)
    (row : List (String × Option String)) : List (String × Option String) :=
  row.map fun cell =>
    if cell.1 ∈ amtCols then (cell.1, newCellOpt idx cell.1 cell.2) else cell

def transformChunk (idx : List (String × Option String)) (amtCols : List String)
    (c : Chunk) : Chunk :=
  { c with rows := c.rows.map (transformRow idx amtCols) }

inductive RunError where
  | configError : String → RunError
  | ioError : String → RunError
  | processingError : String → RunError
deriving DecidableEq

/-- The vectorized update of one cell is size-correct iff its key matches
at most one index entry: with `k ≥ 2` matches the left merge produces `k`
rows for this cell and `update_series_nan.loc[...] = ...` raises. -/
def cellSizeOk (idx : List (String × Option String))
    (cell : String × Option String) : Bool :=
  match cell.2 with
  | none => true
  | some v =>
    v == "" || decide ((idx.countP fun p => p.1 == colKey cell.1 v) ≤ 1)

def chunkSizeOk (idx : List (String × Option String)) (amtCols : List String)
    (c : Chunk) : Bool :=
  c.rows.all fun r => r.all fun cell =>
    !(amtCols.contains cell.1) || cellSizeOk idx cell

def transformChunkE (idx : List (String × Option String)) (amtCols : List String)
    (c : Chunk) : Except RunError Chunk :=
  if chunkSizeOk idx amtCols c then .ok (transformChunk idx amtCols c)
  else .error (.processingError "length mismatch in chunk update")

/-- The chunk loop: sanitize the chunk columns, `continue` when the
identifier column is missing, abort on any processing error. -/
def processChunks (idx : List (String × Option String)) (idCol : String)
    (amtCols : List String) : List Chunk → Except RunError (List Chunk)
  | [] => .ok []
  | c :: cs =>
    let sc := sanitizeChunk c
    if idCol ∈ sc.cols then
      match transformChunkE idx amtCols sc with
      | .error e => .error e
      | .ok pc =>
        match processChunks idx idCol amtCols cs with
        | .error e => .error e
        | .ok rest => .ok (pc :: rest)
    else processChunks idx idCol amtCols cs

def rowCountC (cs : List Chunk) : Nat := (cs.map fun c => c.rows.length).sum

/-! ## Mapping-column resolution and run assembly -/

def lowerChars (s : String) : String := ⟨s.data.map Char.toLower⟩

def stripUnders (l : List Char) : List Char := l.filter fun c => !(c == '_')

/-- Whether `pat` occurs contiguously inside `l` (Python `in` on strings). -/
def containsSeq (pat : List Char) : List Char → Bool
  | [] => pat.isEmpty
  | c :: cs => pat.isPrefixOf (c :: cs) || containsSeq pat cs

def findSenfCol (cols : List String) : Option String :=
  cols.find? fun c =>
    (stripUnders (lowerChars c).data == "amtsenf".data) ||
      containsSeq "amtsenf".data (lowerChars c).data

def findCatCol (cols : List String) : Option String :=
  cols.find? fun c =>
    (stripUnders (lowerChars c).data == "catno".data) ||
      containsSeq "cat_no".data (lowerChars c).data

def findAvgCol (cols : List String) : Option String :=
  cols.find? fun c => containsSeq "avg".data (lowerChars c).data

/-- `if not all([...]): raise ValueError` over the three fuzzy matches. -/
def resolveMappingCols (cols : List String) :
    Option (String × String × String) :=
  match findSenfCol cols, findCatCol cols, findAvgCol cols with
  | some a, some b, some c => some (a, b, c)
  | _, _, _ => none

/-- Step 1 of both scripts: a missing mapping file and unresolvable
mapping columns are both fatal before any chunk is touched. -/
def loadMapping (file : Option (List String × List MappingRow)) :
    Except RunError (List (String × Option String)) :=
  match file with
  | none => .error (.configError "mapping file not found")
  | some f =>
    match resolveMappingCols (f.1.map sanitizeStr) with
    | none => .error (.configError "could not determine mapping columns")
    | some _ => .ok (buildLookup f.2)

/-- `col.lower().startswith('amt_')` on a sanitized column name. -/
def startsWithAmt (c : String) : Bool :=
  "amt_".data.isPrefixOf (lowerChars c).data

/-- The identifier-column choice exactly as the spec words it: exact
match `"id"`, else `"head_id"`, else the first header column. -/
def idColumnSpec (cols : List String) : String :=
  if "id" ∈ cols then "id" else if "head_id" ∈ cols then "head_id" else cols.headD ""

/-- `id_column_data` of the pandas variant: the same priority choice, but
the chosen name is passed through the sanitizer once more (line 105). -/
def idColumnData (cols : List String) : String :=
  sanitizeStr (idColumnSpec cols)

/-- The whole pandas run: load the mapping, read the (sanitized) header,
derive target and identifier columns, process the chunks. -/
def runEngine (mappingFile : Option (List String × List MappingRow))
    (mainFile : Option (List String × List Chunk)) :
    Except RunError (List Chunk) :=
  match loadMapping mappingFile with
  | .error e => .error e
  | .ok idx =>
    match mainFile with
    | none => .error (.ioError "main data file not found")
    | some mf =>
      let cols := mf.1.map sanitizeStr
      let amtCols := cols.filter startsWithAmt
      let idCol := idColumnData cols
      processChunks idx idCol amtCols mf.2

example : idColumnData ["a__b"] = "a_b" := by decide
example : idColumnSpec ["a__b"] = "a__b" := by decide
example : resolveMappingCols (["Amt Senf", "Cat.No", "Avg Value"].map sanitizeStr) =
    some ("Amt_Senf", "Cat_No", "Avg_Value") := by decide
example : resolveMappingCols ["x"] = none := by decide
example :
    processChunks [] "id" []
      [⟨["id"], [[("id", some "1")]]⟩, ⟨["x"], [[("x", none)]]⟩] =
    .ok [⟨["id"], [[("id", some "1")]]⟩] := rfl
example : runEngine none (some (["id"], [])) =
    .error (.configError "mapping file not found") := rfl

/-! ## Sanitizer lemmas -/

lemma mem_squashAux (l : List Char) : ∀ (b : Bool) (c : Char),
    c ∈ squashAux b l → isAllowed c = true := by
  induction l with
  | nil => intro b c h; simp [squashAux] at h
  | cons a t ih =>
    intro b c h
    cases ha : isAllowed a with
    | true =>
      simp only [squashAux, ha, if_true] at h
      rcases List.mem_cons.mp h with h1 | h2
      · exact h1 ▸ ha
      · exact ih false c h2
    | false =>
      simp only [squashAux, ha] at h
      cases b with
      | true => simpa using ih true c (by simpa using h)
      | false =>
        rcases List.mem_cons.mp (by simpa using h) with h1 | h2
        · subst h1; decide
        · exact ih true c h2

lemma squashAux_eq_self (l : List Char) (h : ∀ c ∈ l, isAllowed c = true) :
    ∀ b : Bool, squashAux b l = l := by
  induction l with
  | nil => intro b; rfl
  | cons a t ih =>
    intro b
    have ha : isAllowed a = true := h a (List.mem_cons_self a t)
    have ht : ∀ c ∈ t, isAllowed c = true := fun c hc => h c (List.mem_cons_of_mem a hc)
    simp only [squashAux, ha, if_true]
    rw [ih ht false]

lemma mem_collapseAux (l : List Char) : ∀ (p : Bool) (c : Char),
    c ∈ collapseAux p l → c ∈ l ∨ c = '_' := by
  induction l with
  | nil =>
    intro p c h
    cases p with
    | true => simp [collapseAux] at h; right; exact h
    | false => simp [collapseAux] at h
  | cons a t ih =>
    intro p c h
    cases ha : a == '_' with
    | true =>
      cases p with
      | true =>
        simp only [collapseAux, ha, if_true] at h
        rcases List.mem_cons.mp h with h1 | h2
        · right; exact h1
        · rcases ih false c h2 with h3 | h3
          · left; exact List.mem_cons_of_mem a h3
          · right; exact h3
      | false =>
        simp only [collapseAux, ha, if_true] at h
        rcases ih true c h with h3 | h3
        · left; exact List.mem_cons_of_mem a h3
        · right; exact h3
    | false =>
      cases p with
      | true =>
        have h2 : c = '_' ∨ c = a ∨ c ∈ collapseAux false t := by
          simpa [collapseAux, ha] using h
        rcases h2 with h1 | h1 | h1
        · right; exact h1
        · left; exact h1 ▸ List.mem_cons_self a t
        · rcases ih false c h1 with h3 | h3
          · left; exact List.mem_cons_of_mem a h3
          · right; exact h3
      | false =>
        have h2 : c = a ∨ c ∈ collapseAux false t := by
          simpa [collapseAux, ha] using h
        rcases h2 with h1 | h1
        · left; exact h1 ▸ List.mem_cons_self a t
        · rcases ih false c h1 with h3 | h3
          · left; exact List.mem_cons_of_mem a h3
          · right; exact h3

lemma collapseAux_eq_self : ∀ l : List Char, hasDU l = false →
    collapseAux false l = l ∧
      ((∀ c, l.head? = some c → (c == '_') = false) → collapseAux true l = '_' :: l) := by
  intro l
  induction l with
  | nil =>
    intro _
    refine ⟨rfl, fun _ => ?_⟩
    simp [collapseAux]
  | cons a t ih =>
    intro h
    have hsplit : (a == '_' && nextIsU t) = false ∧ hasDU t = false := by
      simpa only [hasDU, Bool.or_eq_false_iff] using h
    have ht : hasDU t = false := hsplit.2
    constructor
    · cases ha : a == '_' with
      | true =>
        have hnext : nextIsU t = false := by
          have h1 := hsplit.1
          rw [ha] at h1
          simpa using h1
        have hhead : ∀ c, t.head? = some c → (c == '_') = false := by
          intro c hc
          cases t with
          | nil => simp at hc
          | cons d t2 =>
            simp at hc
            subst hc
            simpa [nextIsU] using hnext
        have h2 := (ih ht).2 hhead
        have haeq : a = '_' := by simpa using ha
        simp only [collapseAux, ha, if_true]
        rw [h2, haeq]
        simp
      | false =>
        simp only [collapseAux, ha]
        rw [(ih ht).1]
        simp
    · intro hhead
      have ha : (a == '_') = false := hhead a rfl
      simp only [collapseAux, ha]
      rw [(ih ht).1]
      simp

lemma collapseOnce_eq_self (l : List Char) (h : hasDU l = false) :
    collapseOnce l = l :=
  (collapseAux_eq_self l h).1

lemma head?_dropWhile_false (p : Char → Bool) (l : List Char) (c : Char)
    (h : (l.dropWhile p).head? = some c) : p c = false := by
  have h1 := List.head?_dropWhile_not p l
  rw [h] at h1
  exact h1

lemma stripU_sublist (l : List Char) : List.Sublist (stripU l) l := by
  unfold stripU
  have h1 : List.Sublist (l.dropWhile (· == '_')) l := List.dropWhile_sublist _
  have h2 : List.Sublist ((l.dropWhile (· == '_')).reverse.dropWhile (· == '_'))
      (l.dropWhile (· == '_')).reverse := List.dropWhile_sublist _
  have h3 := h2.reverse
  rw [List.reverse_reverse] at h3
  exact h3.trans h1

lemma stripU_last (l : List Char) (c : Char)
    (h : (stripU l).reverse.head? = some c) : (c == '_') = false := by
  unfold stripU at h
  rw [List.reverse_reverse] at h
  exact head?_dropWhile_false (· == '_') ((l.dropWhile (· == '_')).reverse) c h

lemma stripU_head (l : List Char) (c : Char)
    (h : (stripU l).head? = some c) : (c == '_') = false := by
  have hpre : stripU l <+: l.dropWhile (· == '_') := by
    unfold stripU
    have h2 : ((l.dropWhile (· == '_')).reverse.dropWhile (· == '_')) <:+
        (l.dropWhile (· == '_')).reverse := List.dropWhile_suffix _
    have h3 := List.reverse_prefix.mpr h2
    rw [List.reverse_reverse] at h3
    exact h3
  obtain ⟨ts, hts⟩ := hpre
  have hmain : (l.dropWhile (· == '_')).head? = some c := by
    rw [← hts]
    cases hS : stripU l with
    | nil => rw [hS] at h; simp at h
    | cons x xs =>
      rw [hS] at h
      simpa using h
  exact head?_dropWhile_false (· == '_') l c hmain

lemma stripU_eq_self (l : List Char)
    (hh : ∀ c, l.head? = some c → (c == '_') = false)
    (hl : ∀ c, l.reverse.head? = some c → (c == '_') = false) : stripU l = l := by
  have hdw : l.dropWhile (· == '_') = l := by
    cases l with
    | nil => rfl
    | cons a t =>
      have h1 := hh a rfl
      simp only [List.dropWhile_cons]
      rw [h1]
      simp
  have hdwr : l.reverse.dropWhile (· == '_') = l.reverse := by
    cases hrev : l.reverse with
    | nil => simp
    | cons a t =>
      have h1 := hl a (by rw [hrev]; rfl)
      simp only [List.dropWhile_cons]
      rw [h1]
      simp
  unfold stripU
  rw [hdw, hdwr, List.reverse_reverse]

lemma sanitizeList_allowed (l : List Char) :
    ∀ c ∈ sanitizeList l, isAllowed c = true := by
  intro c hc
  have hc1 : c ∈ collapseOnce (squashAux false l) :=
    (stripU_sublist _).mem hc
  rcases mem_collapseAux _ false c hc1 with h1 | h1
  · exact mem_squashAux l false c h1
  · subst h1; decide

lemma sanitize_idem_of_noDU (l : List Char)
    (h : hasDU (sanitizeList l) = false) :
    sanitizeList (sanitizeList l) = sanitizeList l := by
  have hsq : squashAux false (sanitizeList l) = sanitizeList l :=
    squashAux_eq_self _ (sanitizeList_allowed l) false
  have hco : collapseOnce (sanitizeList l) = sanitizeList l :=
    collapseOnce_eq_self _ h
  have hst : stripU (sanitizeList l) = sanitizeList l := by
    refine stripU_eq_self _ ?_ ?_
    · intro c hc
      exact stripU_head (collapseOnce (squashAux false l)) c hc
    · intro c hc
      exact stripU_last (collapseOnce (squashAux false l)) c hc
  show stripU (collapseOnce (squashAux false (sanitizeList l))) = sanitizeList l
  rw [hsq, hco, hst]

/-! ## Claim C5: sanitization idempotence -/

/-- C5 counterexample: the sanitizer is not idempotent.  The header name
`"a!_!b"` sanitizes to `"a__b"` (the `__`-collapse is a single
non-overlapping pass, so the three underscores produced by the regex step
leave a double underscore), and a second application gives `"a_b"`. -/
theorem claim_C5_counterexample :
    sanitizeStr "a!_!b" = "a__b" ∧ sanitizeStr (sanitizeStr "a!_!b") = "a_b" ∧
      ¬ sanitizeStr (sanitizeStr "a!_!b") = sanitizeStr "a!_!b" := by
  decide

/-- C5 (amended): the sanitizer is idempotent on every input whose
sanitized form contains no two adjacent underscores; in general a second
application can collapse a remaining `__` further, so idempotence fails. -/
theorem claim_C5_amended (s : String) (h : hasDU (sanitizeStr s).data = false) :
    sanitizeStr (sanitizeStr s) = sanitizeStr s := by
  show (⟨sanitizeList (sanitizeList s.data)⟩ : String) = ⟨sanitizeList s.data⟩
  rw [sanitize_idem_of_noDU s.data h]

theorem claim_C5_witness :
    hasDU (sanitizeStr "a,b").data = false ∧
      sanitizeStr (sanitizeStr "a,b") = sanitizeStr "a,b" :=
  ⟨by decide, claim_C5_amended "a,b" (by decide)⟩

/-! ## Claim C4: duplicate composite keys -/

lemma sqlScalar_eq (idx : List (String × Option String)) (key : String) :
    sqlScalar idx key = ((idx.find? fun p => p.1 == key).map Prod.snd).getD none := by
  cases h : idx.find? fun p => p.1 == key with
  | none => simp [sqlScalar, h]
  | some p => simp [sqlScalar, h]

/-- C4 counterexample: with two mapping rows sharing composite key
`"a_k"`, the SQLite scalar subquery returns the FIRST row's average, not
the last, and the pandas merge against the non-unique index returns one
result per duplicate (two rows), not a single last value. -/
theorem claim_C4_counterexample :
    sqlScalar (buildLookup [⟨some "a", some "k", some "1"⟩,
        ⟨some "a", some "k", some "2"⟩]) "a_k" = some "1" ∧
      lookupMatches (buildLookup [⟨some "a", some "k", some "1"⟩,
        ⟨some "a", some "k", some "2"⟩]) "a_k" = [some "1", some "2"] ∧
      ¬ sqlScalar (buildLookup [⟨some "a", some "k", some "1"⟩,
        ⟨some "a", some "k", some "2"⟩]) "a_k" = some "2" := by
  decide

/-- C4 (amended): duplicate keys are all retained in the lookup
structure; a merge lookup yields exactly one result per entry bearing the
key (in source order), and the SQLite scalar subquery returns the average
of the first such entry — first-write-wins, not last-write-wins. -/
theorem claim_C4_amended (idx : List (String × Option String)) (key : String) :
    (lookupMatches idx key).length = idx.countP (fun p => p.1 == key) ∧
      sqlScalar idx key = (lookupMatches idx key).headD none := by
  constructor
  · simp [lookupMatches, List.countP_eq_length_filter]
  · induction idx with
    | nil => rfl
    | cons p t ih =>
      cases hp : p.1 == key with
      | true =>
        rw [sqlScalar_eq]
        simp [List.find?_cons, lookupMatches, List.filter_cons, hp]
      | false =>
        rw [sqlScalar_eq]
        rw [sqlScalar_eq] at ih
        simp [List.find?_cons, lookupMatches, List.filter_cons, hp]

/-! ## Claim C1: non-blank cells, hit and miss -/

lemma find?_key_of_nodup (idx : List (String × Option String)) (k : String)
    (a : Option String) (hnd : (idx.map Prod.fst).Nodup) (h : (k, a) ∈ idx) :
    idx.find? (fun p => p.1 == k) = some (k, a) := by
  induction idx with
  | nil => simp at h
  | cons p t ih =>
    have hnd2 : (t.map Prod.fst).Nodup := (List.nodup_cons.mp (by simpa using hnd)).2
    have hpn : p.1 ∉ t.map Prod.fst := (List.nodup_cons.mp (by simpa using hnd)).1
    rcases List.mem_cons.mp h with h1 | h1
    · rw [← h1]
      simp [List.find?_cons]
    · cases hp : p.1 == k with
      | true =>
        exfalso
        have hmem : k ∈ t.map Prod.fst := List.mem_map.mpr ⟨(k, a), h1, rfl⟩
        have hpk : p.1 = k := by simpa using hp
        exact hpn (hpk ▸ hmem)
      | false =>
        simp only [List.find?_cons, hp]
        exact ih hnd2 h1

lemma mergeLookup_none_not_mem (idx : List (String × Option String)) (key : String)
    (h : mergeLookup idx key = none) :
    (idx.any fun p => p.1 == key) = false := by
  have hf : idx.find? (fun p => p.1 == key) = none := by
    unfold mergeLookup at h
    cases hx : idx.find? fun p => p.1 == key with
    | none => rfl
    | some p => rw [hx] at h; simp at h
  rw [List.any_eq_false]
  intro x hx
  have := List.find?_eq_none.mp hf x hx
  simpa using this

/-- C1 counterexample: in the SQLite variant a lookup miss leaves the
cell at its ORIGINAL value (`update_sql` fires only `WHERE EXISTS` a
matching key), so the cell does not hold the empty/null unmapped marker
and still holds the original value, contradicting the claim. -/
theorem claim_C1_counterexample :
    sqlUpdateCell [] "amt_x" (some "5") = some "5" ∧
      ¬ sqlUpdateCell [] "amt_x" (some "5") = none := by
  decide

/-- C1 (amended): in the pandas chunked variant the claim holds as
stated — on a miss the cell becomes `NaN` (no longer the original value)
and the row id joins the unmapped set; on a hit the cell becomes the
mapped average.  In the SQLite variant the id is likewise recorded on a
miss, but the cell keeps its original value; on a hit it becomes the
mapped average.  (The key-uniqueness hypothesis is the regime in which
the pandas vectorized update does not abort; see C4.) -/
theorem claim_C1_amended (idx : List (String × Option String))
    (col id v : String) (rows : List (String × Option String))
    (hnd : (idx.map Prod.fst).Nodup) (hv : (v == "") = false)
    (hmem : (id, some v) ∈ rows) :
    (mergeLookup idx (colKey col v) = none →
      newCellOpt idx col (some v) = none ∧
        ¬ newCellOpt idx col (some v) = some v ∧
        id ∈ colUnmappedIds idx col rows ∧
        sqlUpdateCell idx col (some v) = some v ∧
        (id, v, col) ∈ sqlUnmappedForCol idx col rows) ∧
    (∀ avg, (colKey col v, avg) ∈ idx →
      newCellOpt idx col (some v) = avg ∧
        sqlUpdateCell idx col (some v) = avg) := by
  constructor
  · intro hmiss
    have hany := mergeLookup_none_not_mem idx (colKey col v) hmiss
    refine ⟨by simp [newCellOpt, hv, hmiss], ?_, ?_, ?_, ?_⟩
    · simp [newCellOpt, hv, hmiss]
    · exact List.mem_map.mpr ⟨(id, some v),
        List.mem_filter.mpr ⟨hmem, by simp [cellUnmapped, hv, hmiss]⟩, rfl⟩
    · simp [sqlUpdateCell, hv, hany]
    · exact List.mem_filterMap.mpr ⟨(id, some v), hmem, by simp [hv, hany]⟩
  · intro avg havg
    have hfind : idx.find? (fun p => p.1 == colKey col v) = some (colKey col v, avg) :=
      find?_key_of_nodup idx (colKey col v) avg hnd havg
    have hml : mergeLookup idx (colKey col v) = some avg := by
      unfold mergeLookup
      rw [hfind]
      rfl
    have hany : (idx.any fun p => p.1 == colKey col v) = true :=
      List.any_eq_true.mpr ⟨(colKey col v, avg), havg, by simp⟩
    constructor
    · simp [newCellOpt, hv, hml]
    · simp [sqlUpdateCell, hv, hany, sqlScalar_eq, hfind]

theorem claim_C1_witness :
    newCellOpt [("amt_x_5", some "10")] "amt_x" (some "7") = none ∧
      ¬ newCellOpt [("amt_x_5", some "10")] "amt_x" (some "7") = some "7" ∧
      "1" ∈ colUnmappedIds [("amt_x_5", some "10")] "amt_x" [("1", some "7")] ∧
      sqlUpdateCell [("amt_x_5", some "10")] "amt_x" (some "7") = some "7" ∧
      ("1", "7", "amt_x") ∈ sqlUnmappedForCol [("amt_x_5", some "10")] "amt_x"
        [("1", some "7")] :=
  (claim_C1_amended [("amt_x_5", some "10")] "amt_x" "1" "7" [("1", some "7")]
    (by decide) (by decide) (by decide)).1 (by decide)

/-! ## Claim C3: blank cells -/

/-- C3 counterexample: in the SQLite variant an empty-string cell is not
exempt from lookup — its key is `col ++ "_"`, which can match a
degenerate mapping key, overwriting the cell; and blank cells are never
recorded as unmapped there (`WHERE col IS NOT NULL AND col != ''`). -/
theorem claim_C3_counterexample :
    sqlUpdateCell [("amt_x_", some "9")] "amt_x" (some "") = some "9" ∧
      ¬ sqlUpdateCell [("amt_x_", some "9")] "amt_x" (some "") = some "" ∧
      sqlUnmappedForCol [("amt_x_", some "9")] "amt_x" [("1", some "")] = [] := by
  decide

/-- C3 (amended): in the pandas chunked variant the claim holds as
stated — a blank (NaN or empty-string) cell is recorded as unmapped, the
cell is left unchanged, and no lookup is attempted (the result does not
depend on the index).  In the SQLite variant blank cells are never
recorded as unmapped; a `NULL` cell stays `NULL`, but an empty-string
cell is still matched against the index (see the counterexample). -/
theorem claim_C3_amended (idx : List (String × Option String)) (col id : String)
    (cell : Option String) (rows : List (String × Option String))
    (hb : isBlank cell = true) (hmem : (id, cell) ∈ rows) :
    newCellOpt idx col cell = cell ∧
      (∀ idx2, newCellOpt idx2 col cell = newCellOpt idx col cell) ∧
      cellUnmapped idx col cell = true ∧
      id ∈ colUnmappedIds idx col rows ∧
      sqlUpdateCell idx col none = none ∧
      sqlUnmappedForCol idx col [(id, cell)] = [] := by
  cases cell with
  | none =>
    refine ⟨rfl, fun idx2 => rfl, rfl, ?_, rfl, rfl⟩
    exact List.mem_map.mpr ⟨(id, none), List.mem_filter.mpr ⟨hmem, rfl⟩, rfl⟩
  | some v =>
    have hveq : v = "" := by simpa [isBlank] using hb
    subst hveq
    refine ⟨rfl, fun idx2 => rfl, rfl, ?_, rfl, rfl⟩
    exact List.mem_map.mpr ⟨(id, some ""),
      List.mem_filter.mpr ⟨hmem, rfl⟩, rfl⟩

theorem claim_C3_witness :
    newCellOpt [("k", some "2")] "amt_x" (some "") = some "" ∧
      (∀ idx2, newCellOpt idx2 "amt_x" (some "") =
        newCellOpt [("k", some "2")] "amt_x" (some "")) ∧
      cellUnmapped [("k", some "2")] "amt_x" (some "") = true ∧
      "1" ∈ colUnmappedIds [("k", some "2")] "amt_x" [("1", some "")] ∧
      sqlUpdateCell [("k", some "2")] "amt_x" none = none ∧
      sqlUnmappedForCol [("k", some "2")] "amt_x" [("1", some "")] = [] :=
  claim_C3_amended [("k", some "2")] "amt_x" "1" (some "") [("1", some "")]
    (by decide) (by decide)

/-! ## Claim C6: per-batch deduplication of unmapped ids -/

lemma setInsert_nodup (acc : List String) (x : String) (h : acc.Nodup) :
    (setInsert acc x).Nodup := by
  unfold setInsert
  split
  · exact h
  · next hx =>
    rw [List.nodup_append]
    exact ⟨h, List.nodup_singleton x, by simpa using hx⟩

lemma setUnion_nodup (xs : List String) : ∀ acc : List String, acc.Nodup →
    (setUnion acc xs).Nodup := by
  induction xs with
  | nil => intro acc h; exact h
  | cons x t ih =>
    intro acc h
    exact ih (setInsert acc x) (setInsert_nodup acc x h)

lemma batchUnmapped_fold_nodup (idx : List (String × Option String))
    (colsData : List (String × List (String × Option String))) :
    ∀ acc : List String, acc.Nodup →
      (colsData.foldl (fun acc cd => setUnion acc (colUnmappedIds idx cd.1 cd.2)) acc).Nodup := by
  induction colsData with
  | nil => intro acc h; exact h
  | cons cd t ih =>
    intro acc h
    exact ih _ (setUnion_nodup _ acc h)

/-- C6 counterexample: the SQLite variant records one report row per
unmapped (row, column) occurrence, so with two missing target columns the
id `"7"` appears twice in the flushed report. -/
theorem claim_C6_counterexample :
    ¬ ((sqlCollectUnmapped []
          [("amt_a", [("7", some "x")]), ("amt_b", [("7", some "x")])]).map
        (fun r => r.1)).count "7" ≤ 1 := by
  decide

/-- C6 (amended): in the pandas chunked variant the accumulator is a set,
so each id occurs at most once per batch however many columns were
blank or misses; the SQLite variant instead flushes one row per unmapped
occurrence, so an id can appear several times. -/
theorem claim_C6_amended (idx : List (String × Option String))
    (colsData : List (String × List (String × Option String))) :
    (batchUnmappedIds idx colsData).Nodup ∧
      sqlCollectUnmapped []
          [("amt_a", [("7", some "x")]), ("amt_b", [("7", some "x")])] =
        [("7", "x", "amt_a"), ("7", "x", "amt_b")] :=
  ⟨batchUnmapped_fold_nodup idx colsData [] List.nodup_nil, by decide⟩

/-! ## Claim C2: empty unmapped report -/

/-- C2 counterexample: the SQLite variant writes the report only
`if not df_unmapped.empty` — when nothing was unmapped no report file is
created at all (`none`), contradicting the claim that the file is
nevertheless created with a header line. -/
theorem claim_C2_counterexample : sqlExportReport [] = none := rfl

/-- C2 (amended): in the pandas chunked variant, when every batch's
unmapped set is empty the report file still gets created and holds
exactly the one header line naming the identifier column and zero data
lines; in the SQLite variant no report file is written in that case. -/
theorem claim_C2_amended (idCol : String) (sets : List (List String))
    (h : ∀ s ∈ sets, s = []) :
    runReport idCol sets = [idCol] ∧ sqlExportReport [] = none := by
  refine ⟨?_, rfl⟩
  have hfold : ∀ ss : List (List String), (∀ s ∈ ss, s = []) →
      ss.foldl (reportStep idCol) (true, []) = (true, []) := by
    intro ss
    induction ss with
    | nil => intro _; rfl
    | cons s t ih =>
      intro hss
      have hs : s = [] := hss s (List.mem_cons_self s t)
      have ht : ∀ x ∈ t, x = [] := fun x hx => hss x (List.mem_cons_of_mem s hx)
      subst hs
      simp only [List.foldl_cons]
      exact ih ht
  unfold runReport
  rw [hfold sets h]
  rfl

theorem claim_C2_witness :
    runReport "id" [[], []] = ["id"] ∧ sqlExportReport [] = none :=
  claim_C2_amended "id" [[], []] (by decide)

/-! ## Claim C9: identifier-column choice -/

/-- C9 counterexample: for the sanitized header `["a__b"]` (the raw name
`"a!_!b"` sanitizes to `"a__b"`) the spec's priority rule picks the first
column `"a__b"`, but the script re-sanitizes the chosen name (line 105)
and ends up with `"a_b"`, which is not a header column at all. -/
theorem claim_C9_counterexample :
    idColumnSpec ["a__b"] = "a__b" ∧ idColumnData ["a__b"] = "a_b" ∧
      ¬ idColumnData ["a__b"] = idColumnSpec ["a__b"] := by
  decide

/-- C9 (amended): the identifier column is chosen from the sanitized
header by the priority order exact `"id"`, else exact `"head_id"`, else
the first column — and the chosen name is then passed through the
sanitizer once more.  That extra pass is the identity for `"id"` and
`"head_id"` and for a first column whose sanitized name contains no
double underscore, but can otherwise change the name. -/
theorem claim_C9_amended (raw : List String) (r : String) (cols : List String)
    (hc : cols = (r :: raw).map sanitizeStr) :
    ("id" ∈ cols → idColumnData cols = "id") ∧
      ("id" ∉ cols → "head_id" ∈ cols → idColumnData cols = "head_id") ∧
      ("id" ∉ cols → "head_id" ∉ cols → hasDU (sanitizeStr r).data = false →
        idColumnData cols = sanitizeStr r) := by
  refine ⟨?_, ?_, ?_⟩
  · intro h
    unfold idColumnData idColumnSpec
    rw [if_pos h]
    decide
  · intro h1 h2
    unfold idColumnData idColumnSpec
    rw [if_neg h1, if_pos h2]
    decide
  · intro h1 h2 h3
    unfold idColumnData idColumnSpec
    rw [if_neg h1, if_neg h2]
    subst hc
    simp only [List.map_cons, List.headD_cons]
    show (⟨sanitizeList (sanitizeList r.data)⟩ : String) = ⟨sanitizeList r.data⟩
    rw [sanitize_idem_of_noDU r.data h3]

theorem claim_C9_witness :
    idColumnData (["col a"].map sanitizeStr) = sanitizeStr "col a" :=
  (claim_C9_amended [] "col a" (["col a"].map sanitizeStr) rfl).2.2
    (by decide) (by decide) (by decide)

/-! ## Claim C10: mapping rows with absent key components -/

/-- C10: a mapping row with an absent sender-code or category-number is
kept — `fillna('')` turns the absent part into the empty string, the
row still contributes a composite key of the degenerate shapes
`"_CAT"`, `"S_"` or `"_"`, and a main-data value can hit such a key
(column `amt_x`, value `"5_"` hits the key of a row with sender code
`amt_x_5` and absent category number). -/
theorem claim_C10 :
    (∀ rows : List MappingRow, (buildLookup rows).length = rows.length) ∧
      (∀ (rows : List MappingRow) (r : MappingRow), r ∈ rows →
        (compositeKey r, r.avg) ∈ buildLookup rows) ∧
      (∀ c a, compositeKey ⟨none, some c, a⟩ = "_" ++ c) ∧
      (∀ s a, compositeKey ⟨some s, none, a⟩ = s ++ "_") ∧
      (∀ a, compositeKey ⟨none, none, a⟩ = "_") ∧
      newCellOpt (buildLookup [⟨some "amt_x_5", none, some "9"⟩]) "amt_x"
        (some "5_") = some "9" := by
  refine ⟨?_, ?_, ?_, ?_, ?_, ?_⟩
  · intro rows
    simp [buildLookup]
  · intro rows r h
    exact List.mem_map.mpr ⟨r, h, rfl⟩
  · intro c a
    show ("" ++ "_") ++ c = "_" ++ c
    rw [String.empty_append]
  · intro s a
    show (s ++ "_") ++ "" = s ++ "_"
    rw [String.append_empty]
  · intro a
    rfl
  · decide

theorem claim_C10_witness :
    (compositeKey ⟨some "amt_x_5", none, some "9"⟩, some "9") ∈
      buildLookup [⟨some "amt_x_5", none, some "9"⟩] :=
  claim_C10.2.1 [⟨some "amt_x_5", none, some "9"⟩]
    ⟨some "amt_x_5", none, some "9"⟩ (by decide)

/-! ## Claim C7: output row count -/

lemma transformChunkE_ok_len (idx : List (String × Option String))
    (amtCols : List String) (c pc : Chunk)
    (h : transformChunkE idx amtCols c = .ok pc) :
    pc.rows.length = c.rows.length := by
  unfold transformChunkE at h
  split at h
  · have hpc : pc = transformChunk idx amtCols c := by
      cases h
      rfl
    subst hpc
    simp [transformChunk]
  · cases h

lemma sanitizeChunk_rows_len (c : Chunk) :
    (sanitizeChunk c).rows.length = c.rows.length := by
  simp [sanitizeChunk]

lemma rowCountC_cons (c : Chunk) (t : List Chunk) :
    rowCountC (c :: t) = c.rows.length + rowCountC t := by
  simp [rowCountC]

lemma rowCountC_filter_partition (p : Chunk → Bool) (cs : List Chunk) :
    rowCountC (cs.filter p) + rowCountC (cs.filter fun c => !(p c)) = rowCountC cs := by
  induction cs with
  | nil => rfl
  | cons c t ih =>
    cases hp : p c with
    | true =>
      simp [List.filter_cons, hp, rowCountC_cons]
      omega
    | false =>
      simp [List.filter_cons, hp, rowCountC_cons]
      omega

lemma processChunks_ok_lens (idx : List (String × Option String)) (idCol : String)
    (amtCols : List String) :
    ∀ chunks out : List Chunk, processChunks idx idCol amtCols chunks = .ok out →
      out.map (fun c => c.rows.length) =
        (chunks.filter fun c => decide (idCol ∈ (sanitizeChunk c).cols)).map
          (fun c => c.rows.length) := by
  intro chunks
  induction chunks with
  | nil =>
    intro out h
    have : out = [] := by
      simpa [processChunks] using h.symm
    subst this
    rfl
  | cons c cs ih =>
    intro out h
    by_cases hid : idCol ∈ (sanitizeChunk c).cols
    · simp only [processChunks, if_pos hid] at h
      cases htc : transformChunkE idx amtCols (sanitizeChunk c) with
      | error e => rw [htc] at h; cases h
      | ok pc =>
        rw [htc] at h
        cases hrest : processChunks idx idCol amtCols cs with
        | error e => rw [hrest] at h; cases h
        | ok rest =>
          rw [hrest] at h
          have hout : out = pc :: rest := by
            cases h
            rfl
          subst hout
          simp only [List.map_cons]
          rw [List.filter_cons]
          simp only [decide_eq_true hid, if_true, List.map_cons]
          have h1 : pc.rows.length = c.rows.length :=
            (transformChunkE_ok_len idx amtCols _ pc htc).trans
              (sanitizeChunk_rows_len c)
          rw [h1, ih rest hrest]
    · simp only [processChunks, if_neg hid] at h
      rw [List.filter_cons]
      simp only [decide_eq_false hid, if_false]
      exact ih out h

/-- C7: a completed run writes exactly the rows of the batches whose
(sanitized) header contains the identifier column: the output row count
is the input row count minus exactly the rows of the skipped batches,
and per kept batch the row count is preserved (no drop, no duplication). -/
theorem claim_C7 (idx : List (String × Option String)) (idCol : String)
    (amtCols : List String) (chunks out : List Chunk)
    (h : processChunks idx idCol amtCols chunks = .ok out) :
    out.map (fun c => c.rows.length) =
        (chunks.filter fun c => decide (idCol ∈ (sanitizeChunk c).cols)).map
          (fun c => c.rows.length) ∧
      rowCountC out = rowCountC chunks -
        rowCountC (chunks.filter fun c => !decide (idCol ∈ (sanitizeChunk c).cols)) := by
  have hlens := processChunks_ok_lens idx idCol amtCols chunks out h
  refine ⟨hlens, ?_⟩
  have hsum : rowCountC out =
      rowCountC (chunks.filter fun c => decide (idCol ∈ (sanitizeChunk c).cols)) := by
    unfold rowCountC
    rw [hlens]
  have hpart := rowCountC_filter_partition
    (fun c => decide (idCol ∈ (sanitizeChunk c).cols)) chunks
  omega

theorem claim_C7_witness :
    (([⟨["id"], [[("id", some "1")]]⟩] : List Chunk).map fun c => c.rows.length) =
        (([⟨["id"], [[("id", some "1")]]⟩, ⟨["x"], [[("x", none)]]⟩] : List Chunk).filter
          fun c => decide ("id" ∈ (sanitizeChunk c).cols)).map (fun c => c.rows.length) ∧
      rowCountC [⟨["id"], [[("id", some "1")]]⟩] =
        rowCountC [⟨["id"], [[("id", some "1")]]⟩, ⟨["x"], [[("x", none)]]⟩] -
          rowCountC (([⟨["id"], [[("id", some "1")]]⟩, ⟨["x"], [[("x", none)]]⟩] : List Chunk).filter
            fun c => !decide ("id" ∈ (sanitizeChunk c).cols)) :=
  claim_C7 [] "id" [] [⟨["id"], [[("id", some "1")]]⟩, ⟨["x"], [[("x", none)]]⟩]
    [⟨["id"], [[("id", some "1")]]⟩] rfl

/-! ## Claim C8: error-handling asymmetry -/

/-- C8: a batch lacking the identifier column is skipped and processing
continues with the remaining batches, while a missing mapping file,
unresolvable mapping columns and a missing main-data file abort the run
before or instead of producing output, and any processing error raised
inside the batch loop propagates out of the whole run — the
missing-identifier-column case is the only locally recovered error. -/
theorem claim_C8 :
    (∀ main, runEngine none main = .error (.configError "mapping file not found")) ∧
      (∀ mcols mrows main, resolveMappingCols (mcols.map sanitizeStr) = none →
        runEngine (some (mcols, mrows)) main =
          .error (.configError "could not determine mapping columns")) ∧
      (∀ mfile idx, loadMapping mfile = .ok idx →
        runEngine mfile none = .error (.ioError "main data file not found")) ∧
      (∀ idx idCol amtCols c cs, idCol ∉ (sanitizeChunk c).cols →
        processChunks idx idCol amtCols (c :: cs) = processChunks idx idCol amtCols cs) ∧
      (∀ idx idCol amtCols c cs e, idCol ∈ (sanitizeChunk c).cols →
        transformChunkE idx amtCols (sanitizeChunk c) = .error e →
        processChunks idx idCol amtCols (c :: cs) = .error e) := by
  refine ⟨?_, ?_, ?_, ?_, ?_⟩
  · intro main
    rfl
  · intro mcols mrows main hres
    have hl : loadMapping (some (mcols, mrows)) =
        .error (.configError "could not determine mapping columns") := by
      show (match resolveMappingCols (mcols.map sanitizeStr) with
        | none =>
          (.error (.configError "could not determine mapping columns") :
            Except RunError (List (String × Option String)))
        | some _ => .ok (buildLookup mrows)) =
        .error (.configError "could not determine mapping columns")
      rw [hres]
    unfold runEngine
    rw [hl]
  · intro mfile idx hload
    unfold runEngine
    rw [hload]
  · intro idx idCol amtCols c cs hid
    simp only [processChunks]
    rw [if_neg hid]
  · intro idx idCol amtCols c cs e hid htc
    simp only [processChunks]
    rw [if_pos hid, htc]

theorem claim_C8_witness :
    runEngine none (some (["id"], [])) =
        .error (.configError "mapping file not found") ∧
      runEngine (some (["x"], [])) (some (["id"], [])) =
        .error (.configError "could not determine mapping columns") ∧
      runEngine (some (["Amt Senf", "Cat No", "Avg"], [])) none =
        .error (.ioError "main data file not found") ∧
      processChunks [] "id" [] [⟨["x"], []⟩] = processChunks [] "id" [] [] ∧
      processChunks [("amt_a_v", some "1"), ("amt_a_v", some "2")] "id" ["amt_a"]
          [⟨["id", "amt_a"], [[("id", some "1"), ("amt_a", some "v")]]⟩] =
        .error (.processingError "length mismatch in chunk update") :=
  ⟨claim_C8.1 (some (["id"], [])),
   claim_C8.2.1 ["x"] [] (some (["id"], [])) (by decide),
   claim_C8.2.2.1 (some (["Amt Senf", "Cat No", "Avg"], [])) (buildLookup []) rfl,
   claim_C8.2.2.2.1 [] "id" [] ⟨["x"], []⟩ [] (by decide),
   claim_C8.2.2.2.2 [("amt_a_v", some "1"), ("amt_a_v", some "2")] "id" ["amt_a"]
     ⟨["id", "amt_a"], [[("id", some "1"), ("amt_a", some "v")]]⟩ []
     (.processingError "length mismatch in chunk update") (by decide) rfl⟩
